import Mathlib

/-!
Verification of the oc-wasm-bios boot firmware (src/main.rs).

The development shallowly embeds the program: bytes are `Nat` values reduced
modulo 256 where the Rust `u8` type guarantees the bound, the CBOR decoder is
a pure function on `List Nat`, and the boot state machine is a function from
the current state and the host's responses (an `Env` record) to a step result
recording the outcome, the host calls issued, and the bytes appended to the
execution buffer.
-/

namespace OcWasmBios

/-- The CBOR major types, mirroring the Rust `CborMajorType` enumeration. -/
inductive CborMajorType where
  | UnsignedInteger
  | NegativeInteger
  | Bytes
  | String
  | Array
  | Map
  | Tag
  | Special
  | Float
deriving DecidableEq, Repr

/-- The subset of `oc_wasm_safe::error::Error` values that the embedded code
distinguishes: the two produced by the decoder, and a stand-in for any other
error value handed to the firmware by a host primitive. -/
inductive Error where
  | BufferTooShort
  | CborDecode
  | Other
deriving DecidableEq, Repr

/-- Decodes the major type from the first header byte `b` (`first_byte >> 5`
in the source).  For a `u8` the shift yields 0..7; the final arm of this chain
is therefore the source's arm for value 7 (the source marks values ≥ 8
`unreachable!()`). -/
def cborMajorOfByte (b : Nat) : CborMajorType :=
  if b >>> 5 = 0 then .UnsignedInteger
  else if b >>> 5 = 1 then .NegativeInteger
  else if b >>> 5 = 2 then .Bytes
  else if b >>> 5 = 3 then .String
  else if b >>> 5 = 4 then .Array
  else if b >>> 5 = 5 then .Map
  else if b >>> 5 = 6 then .Tag
  else if 25 ≤ b &&& 31 ∧ b &&& 31 ≤ 27 then .Float
  else .Special

/-- The count-accumulation loop of the source:
`count_value = (count_value << 8) | byte` over the count bytes.  The `% 256`
embeds the `u8` type of each byte. -/
def beCombine (acc : Nat) (bytes : List Nat) : Nat :=
  bytes.foldl (fun cv byte => (cv <<< 8) ||| (byte % 256)) acc

/-- Reads `n` big-endian count bytes from `slice` (the source's
`slice.split_at(count_bytes)` preceded by the length check). -/
def readCountBytes (n : Nat) (slice : List Nat) : Except Error (Nat × List Nat) :=
  if slice.length < n then .error .CborDecode
  else .ok (beCombine 0 (slice.take n), slice.drop n)

/-- Decodes the count from the first header byte `b` and the remaining slice,
mirroring the count-decoding block of `cbor_decode_header`. -/
def cborDecodeCount (b : Nat) (slice : List Nat) : Except Error (Nat × List Nat) :=
  if b &&& 31 ≤ 23 then .ok (b &&& 31, slice)
  else if b &&& 31 = 24 then readCountBytes 1 slice
  else if b &&& 31 = 25 then readCountBytes 2 slice
  else if b &&& 31 = 26 then readCountBytes 4 slice
  else if b &&& 31 = 27 then readCountBytes 8 slice
  else .error .CborDecode

/-- Reads a CBOR data item header from a byte slice, mirroring the Rust
`cbor_decode_header`.  The `% 256` on the first byte embeds its `u8` type. -/
def cbor_decode_header (slice : List Nat) :
    Except Error (CborMajorType × Nat × List Nat) :=
  match slice with
  | [] => .error .BufferTooShort
  | first_byte :: rest =>
    let b := first_byte % 256
    match cborDecodeCount b rest with
    | .error e => .error e
    | .ok (count, rest2) => .ok (cborMajorOfByte b, count, rest2)

/-- The arithmetic meaning of a big-endian byte sequence (most significant
byte first): used to state that the decoder's count bytes are interpreted as
a big-endian unsigned integer. -/
def beValue (bytes : List Nat) : Nat :=
  bytes.foldl (fun a byte => a * 256 + byte) 0

/-! Bit-level helper lemmas used to relate the source's shift/or/and
operations to plain arithmetic. -/

/-- Shifting left by `k` then or-ing in a value below `2 ^ k` is addition. -/
theorem shiftLeft_or_eq_add (a c k : Nat) (h : c < 2 ^ k) :
    (a <<< k) ||| c = a * 2 ^ k + c := by
  induction k generalizing a c with
  | zero =>
    interval_cases c
    simp [Nat.shiftLeft_zero]
  | succ k ih =>
    have hdiv : ((a <<< (k + 1)) ||| c) / 2 = (a <<< k) ||| (c / 2) := by
      rw [Nat.or_div_two]
      congr 1
      rw [Nat.shiftLeft_eq, Nat.shiftLeft_eq, pow_succ]
      rw [← Nat.mul_assoc, Nat.mul_div_cancel _ (by omega : 0 < 2)]
    have hc2 : c / 2 < 2 ^ k := by
      have hp : c < 2 ^ k * 2 := by rw [← pow_succ]; exact h
      omega
    have hih := ih a (c / 2) hc2
    have heven : (a <<< (k + 1)) % 2 = 0 := by
      rw [Nat.shiftLeft_eq, pow_succ, ← Nat.mul_assoc]
      exact Nat.mul_mod_left _ 2
    have hmod : ((a <<< (k + 1)) ||| c) % 2 = c % 2 := by
      rcases Nat.mod_two_eq_zero_or_one c with hc | hc
      · have hnot : ¬ (((a <<< (k + 1)) ||| c) % 2 = 1) := by
          rw [Nat.or_mod_two_eq_one]
          omega
        omega
      · rw [hc, Nat.or_mod_two_eq_one.mpr (Or.inr hc)]
    have hsplit := Nat.div_add_mod ((a <<< (k + 1)) ||| c) 2
    rw [hdiv, hih] at hsplit
    rw [pow_succ, ← Nat.mul_assoc]
    omega

/-- The low five bits of a byte are its remainder modulo 32. -/
theorem and31_eq_mod (b : Nat) : b &&& 31 = b % 32 := by
  simpa using Nat.and_pow_two_sub_one_eq_mod b 5

/-- The top bits of a byte after dropping the low five. -/
theorem shr5_eq_div (b : Nat) : b >>> 5 = b / 32 := by
  rw [Nat.shiftRight_eq_div_pow]

/-- One step of the count-accumulation loop in arithmetic form. -/
theorem combine_step (acc byte : Nat) :
    (acc <<< 8) ||| (byte % 256) = acc * 256 + byte % 256 := by
  have h : byte % 256 < 2 ^ 8 := by
    have := Nat.mod_lt byte (y := 256) (by omega)
    norm_num
    omega
  have := shiftLeft_or_eq_add acc (byte % 256) 8 h
  norm_num at this
  exact this

/-- On byte sequences the accumulation loop computes the big-endian value. -/
theorem beCombine_eq_beValue (bytes : List Nat) (acc : Nat)
    (h : ∀ x ∈ bytes, x < 256) :
    beCombine acc bytes = bytes.foldl (fun a byte => a * 256 + byte) acc := by
  induction bytes generalizing acc with
  | nil => rfl
  | cons x xs ih =>
    have hx : x < 256 := h x (List.mem_cons_self x xs)
    have hxs : ∀ y ∈ xs, y < 256 := fun y hy => h y (List.mem_cons_of_mem x hy)
    simp only [beCombine, List.foldl_cons] at *
    rw [combine_step, Nat.mod_eq_of_lt hx]
    exact ih _ hxs

/-! Unfolding lemmas for the decoder. -/

theorem cborDecodeCount_literal {b : Nat} (s : List Nat) (h : b &&& 31 ≤ 23) :
    cborDecodeCount b s = .ok (b &&& 31, s) := by
  simp [cborDecodeCount, h]

theorem cborDecodeCount_24 {b : Nat} (s : List Nat) (h : b &&& 31 = 24) :
    cborDecodeCount b s = readCountBytes 1 s := by
  simp [cborDecodeCount, h]

theorem cborDecodeCount_25 {b : Nat} (s : List Nat) (h : b &&& 31 = 25) :
    cborDecodeCount b s = readCountBytes 2 s := by
  simp [cborDecodeCount, h]

theorem cborDecodeCount_26 {b : Nat} (s : List Nat) (h : b &&& 31 = 26) :
    cborDecodeCount b s = readCountBytes 4 s := by
  simp [cborDecodeCount, h]

theorem cborDecodeCount_27 {b : Nat} (s : List Nat) (h : b &&& 31 = 27) :
    cborDecodeCount b s = readCountBytes 8 s := by
  simp [cborDecodeCount, h]

theorem cborDecodeCount_invalid {b : Nat} (s : List Nat) (h : 28 ≤ b &&& 31) :
    cborDecodeCount b s = .error .CborDecode := by
  have h1 : ¬ (b &&& 31 ≤ 23) := by omega
  have h2 : ¬ (b &&& 31 = 24) := by omega
  have h3 : ¬ (b &&& 31 = 25) := by omega
  have h4 : ¬ (b &&& 31 = 26) := by omega
  have h5 : ¬ (b &&& 31 = 27) := by omega
  simp [cborDecodeCount, h1, h2, h3, h4, h5]

theorem cbor_decode_header_cons (b : Nat) (rest : List Nat) :
    cbor_decode_header (b :: rest) =
      match cborDecodeCount (b % 256) rest with
      | .error e => .error e
      | .ok (count, rest2) => .ok (cborMajorOfByte (b % 256), count, rest2) := by
  rfl

/-- Every failure of the count decoder is the decode error. -/
theorem cborDecodeCount_error {b : Nat} {s : List Nat} {e : Error}
    (h : cborDecodeCount b s = .error e) : e = .CborDecode := by
  simp only [cborDecodeCount, readCountBytes] at h
  repeat' split at h
  all_goals simp_all

/-- A successful header decode fixes the major type from the first byte. -/
theorem cbor_decode_header_ok_major {b : Nat} {rest : List Nat}
    {m : CborMajorType} {c : Nat} {r : List Nat}
    (h : cbor_decode_header (b :: rest) = .ok (m, c, r)) :
    m = cborMajorOfByte (b % 256) := by
  rw [cbor_decode_header_cons] at h
  cases hd : cborDecodeCount (b % 256) rest with
  | error e => rw [hd] at h; simp at h
  | ok p =>
    rw [hd] at h
    cases p
    simp only [Except.ok.injEq, Prod.mk.injEq] at h
    exact h.1.symm

/-- C1.  For every input accepted by the header decoder, the count is decoded
from the low 5 bits of the first byte: a selector 0–23 is the literal count
consuming no payload bytes; selectors 24/25/26/27 read the count from the
following 1/2/4/8 bytes as a big-endian unsigned integer, failing with the
decode error when fewer bytes follow; selectors 28–31 always fail with the
decode error. -/
theorem C1_count_decoding (b : Nat) (rest : List Nat) (hb : b < 256)
    (hrest : ∀ x ∈ rest, x < 256) :
    (b &&& 31 ≤ 23 →
      cbor_decode_header (b :: rest) = .ok (cborMajorOfByte b, b &&& 31, rest)) ∧
    (∀ w, (b &&& 31 = 24 ∧ w = 1) ∨ (b &&& 31 = 25 ∧ w = 2) ∨
          (b &&& 31 = 26 ∧ w = 4) ∨ (b &&& 31 = 27 ∧ w = 8) →
      (w ≤ rest.length →
        cbor_decode_header (b :: rest) =
          .ok (cborMajorOfByte b, beValue (rest.take w), rest.drop w)) ∧
      (rest.length < w →
        cbor_decode_header (b :: rest) = .error .CborDecode)) ∧
    (28 ≤ b &&& 31 → cbor_decode_header (b :: rest) = .error .CborDecode) := by
  have hbmod : b % 256 = b := Nat.mod_eq_of_lt hb
  have htake : ∀ w : Nat, ∀ x ∈ rest.take w, x < 256 :=
    fun w x hx => hrest x (List.take_subset w rest hx)
  have hread : ∀ w : Nat, w ≤ rest.length →
      readCountBytes w rest = .ok (beValue (rest.take w), rest.drop w) := by
    intro w hw
    have hlen : ¬ (rest.length < w) := by omega
    simp only [readCountBytes, if_neg hlen]
    rw [beCombine_eq_beValue _ _ (htake w)]
    rfl
  have hreadshort : ∀ w : Nat, rest.length < w →
      readCountBytes w rest = .error .CborDecode := by
    intro w hw
    simp only [readCountBytes, if_pos hw]
  refine ⟨?_, ?_, ?_⟩
  · intro h
    rw [cbor_decode_header_cons, hbmod, cborDecodeCount_literal rest h]
  · intro w hw
    have hsel : cborDecodeCount b rest = readCountBytes w rest := by
      rcases hw with ⟨h, rfl⟩ | ⟨h, rfl⟩ | ⟨h, rfl⟩ | ⟨h, rfl⟩
      · exact cborDecodeCount_24 rest h
      · exact cborDecodeCount_25 rest h
      · exact cborDecodeCount_26 rest h
      · exact cborDecodeCount_27 rest h
    constructor
    · intro hlen
      rw [cbor_decode_header_cons, hbmod, hsel, hread w hlen]
    · intro hlen
      rw [cbor_decode_header_cons, hbmod, hsel, hreadshort w hlen]
  · intro h
    rw [cbor_decode_header_cons, hbmod, cborDecodeCount_invalid rest h]

/-- Witness for C1 at the concrete input `0x58 :: [5, 1, 2, 3, 4, 5]`
(byte-string major type, selector 24, one count byte). -/
theorem C1_count_decoding_witness :
    (88 : Nat) < 256 ∧ (∀ x ∈ [5, 1, 2, 3, 4, 5], x < 256) ∧
    ((88 &&& 31 ≤ 23 →
      cbor_decode_header (88 :: [5, 1, 2, 3, 4, 5]) =
        .ok (cborMajorOfByte 88, 88 &&& 31, [5, 1, 2, 3, 4, 5])) ∧
    (∀ w, (88 &&& 31 = 24 ∧ w = 1) ∨ (88 &&& 31 = 25 ∧ w = 2) ∨
          (88 &&& 31 = 26 ∧ w = 4) ∨ (88 &&& 31 = 27 ∧ w = 8) →
      (w ≤ [5, 1, 2, 3, 4, 5].length →
        cbor_decode_header (88 :: [5, 1, 2, 3, 4, 5]) =
          .ok (cborMajorOfByte 88, beValue ([5, 1, 2, 3, 4, 5].take w),
               [5, 1, 2, 3, 4, 5].drop w)) ∧
      ([5, 1, 2, 3, 4, 5].length < w →
        cbor_decode_header (88 :: [5, 1, 2, 3, 4, 5]) = .error .CborDecode)) ∧
    (28 ≤ 88 &&& 31 →
      cbor_decode_header (88 :: [5, 1, 2, 3, 4, 5]) = .error .CborDecode)) :=
  ⟨by decide, by decide, C1_count_decoding 88 [5, 1, 2, 3, 4, 5] (by decide) (by decide)⟩

/-- C5.  On every successful decode, the major type returned is determined by
the top 3 bits of the first byte as 0=UnsignedInteger, 1=NegativeInteger,
2=ByteString, 3=TextString, 4=Array, 5=Map, 6=Tag, 7=Special, except that
under top bits 7 a count selector of 25, 26 or 27 yields Float instead. -/
theorem C5_major_type_mapping (b : Nat) (rest : List Nat) (hb : b < 256)
    (m : CborMajorType) (c : Nat) (r : List Nat)
    (h : cbor_decode_header (b :: rest) = .ok (m, c, r)) :
    (b >>> 5 = 0 → m = .UnsignedInteger) ∧
    (b >>> 5 = 1 → m = .NegativeInteger) ∧
    (b >>> 5 = 2 → m = .Bytes) ∧
    (b >>> 5 = 3 → m = .String) ∧
    (b >>> 5 = 4 → m = .Array) ∧
    (b >>> 5 = 5 → m = .Map) ∧
    (b >>> 5 = 6 → m = .Tag) ∧
    (b >>> 5 = 7 →
      (25 ≤ b &&& 31 ∧ b &&& 31 ≤ 27 → m = .Float) ∧
      (¬ (25 ≤ b &&& 31 ∧ b &&& 31 ≤ 27) → m = .Special)) := by
  have hm : m = cborMajorOfByte b := by
    rw [cbor_decode_header_ok_major h, Nat.mod_eq_of_lt hb]
  subst hm
  refine ⟨?_, ?_, ?_, ?_, ?_, ?_, ?_, ?_⟩
  · intro h0; simp [cborMajorOfByte, h0]
  · intro h1; simp [cborMajorOfByte, h1]
  · intro h2; simp [cborMajorOfByte, h2]
  · intro h3; simp [cborMajorOfByte, h3]
  · intro h4; simp [cborMajorOfByte, h4]
  · intro h5; simp [cborMajorOfByte, h5]
  · intro h6; simp [cborMajorOfByte, h6]
  · intro h7
    constructor
    · intro hf; simp [cborMajorOfByte, h7, hf]
    · intro hf; simp [cborMajorOfByte, h7, hf]

/-- Witness for C5 at the concrete input `[0xf7]` (Special, count 23). -/
theorem C5_major_type_mapping_witness :
    (247 : Nat) < 256 ∧
    cbor_decode_header [247] = .ok (.Special, 23, []) ∧
    (((247 : Nat) >>> 5 = 0 → CborMajorType.Special = .UnsignedInteger) ∧
     ((247 : Nat) >>> 5 = 1 → CborMajorType.Special = .NegativeInteger) ∧
     ((247 : Nat) >>> 5 = 2 → CborMajorType.Special = .Bytes) ∧
     ((247 : Nat) >>> 5 = 3 → CborMajorType.Special = .String) ∧
     ((247 : Nat) >>> 5 = 4 → CborMajorType.Special = .Array) ∧
     ((247 : Nat) >>> 5 = 5 → CborMajorType.Special = .Map) ∧
     ((247 : Nat) >>> 5 = 6 → CborMajorType.Special = .Tag) ∧
     ((247 : Nat) >>> 5 = 7 →
       (25 ≤ 247 &&& 31 ∧ 247 &&& 31 ≤ 27 → CborMajorType.Special = .Float) ∧
       (¬ (25 ≤ 247 &&& 31 ∧ 247 &&& 31 ≤ 27) →
         CborMajorType.Special = .Special))) :=
  ⟨by decide, by rfl,
    C5_major_type_mapping 247 [] (by decide) .Special 23 [] (by rfl)⟩

/-- C9.  The decoder fails with `BufferTooShort` exactly on the empty input;
every failure on a non-empty input is the decode error. -/
theorem C9_buffer_too_short (slice : List Nat) :
    (cbor_decode_header slice = .error .BufferTooShort ↔ slice = []) ∧
    (∀ e, slice ≠ [] → cbor_decode_header slice = .error e →
      e = .CborDecode) := by
  cases slice with
  | nil => exact ⟨by simp [cbor_decode_header], by simp⟩
  | cons b rest =>
    constructor
    · rw [cbor_decode_header_cons]
      constructor
      · intro h
        cases hd : cborDecodeCount (b % 256) rest with
        | error e =>
          rw [hd] at h
          have := cborDecodeCount_error hd
          simp_all
        | ok p =>
          rw [hd] at h
          cases p
          simp at h
      · intro h; exact absurd h (by simp)
    · intro e _ h
      rw [cbor_decode_header_cons] at h
      cases hd : cborDecodeCount (b % 256) rest with
      | error e2 =>
        rw [hd] at h
        have h2 := cborDecodeCount_error hd
        simp only [Except.error.injEq] at h
        exact h ▸ h2
      | ok p =>
        rw [hd] at h
        cases p
        simp at h

/-- Witness for C9 at the concrete non-empty input `[28]` (invalid count
selector) exercising the non-empty branch. -/
theorem C9_buffer_too_short_witness :
    (cbor_decode_header [28] = .error .BufferTooShort ↔ ([28] : List Nat) = []) ∧
    (∀ e, ([28] : List Nat) ≠ [] → cbor_decode_header [28] = .error e →
      e = .CborDecode) :=
  C9_buffer_too_short [28]

/-! Spec-side definitions for the round-trip claim: a header encoder following
the spec's description of the four count width classes.  These are the only
definitions here taken from the spec's words rather than the source; they are
compared against the source-derived decoder. -/

/-- Big-endian byte list of `n` over `w` bytes, most significant first. -/
def beBytes : Nat → Nat → List Nat
  | 0, _ => []
  | w + 1, n => (n >>> (8 * w)) % 256 :: beBytes w n

/-- The four count width classes of the spec's round-trip property. -/
inductive CountWidth where
  | literal
  | w1
  | w2
  | w4
  | w8
deriving DecidableEq, Repr

/-- Which counts a width class can represent. -/
def CountWidth.fits : CountWidth → Nat → Prop
  | .literal, n => n ≤ 23
  | .w1, n => n < 2 ^ 8
  | .w2, n => n < 2 ^ 16
  | .w4, n => n < 2 ^ 32
  | .w8, n => n < 2 ^ 64

/-- Header encoding following the spec's words: selector 0–23 is the literal
count in the low five bits; selectors 24/25/26/27 are followed by the count in
1/2/4/8 big-endian bytes. -/
def cbor_encode_header (majorBits : Nat) : CountWidth → Nat → List Nat
  | .literal, n => [(majorBits <<< 5) ||| n]
  | .w1, n => ((majorBits <<< 5) ||| 24) :: beBytes 1 n
  | .w2, n => ((majorBits <<< 5) ||| 25) :: beBytes 2 n
  | .w4, n => ((majorBits <<< 5) ||| 26) :: beBytes 4 n
  | .w8, n => ((majorBits <<< 5) ||| 27) :: beBytes 8 n

/-- C8.  Encoding a count in any width class that can represent it and
decoding the result with the header decoder returns the original count (with
the rest of the input untouched). -/
theorem C8_round_trip (mb : Nat) (w : CountWidth) (n : Nat) (tail : List Nat)
    (hmb : mb ≤ 7) (hn : w.fits n) :
    ∃ mt, cbor_decode_header (cbor_encode_header mb w n ++ tail) =
      .ok (mt, n, tail) := by
  cases w with
  | literal =>
    have hn' : n ≤ 23 := hn
    have hb := shiftLeft_or_eq_add mb n 5 (by norm_num; omega)
    norm_num at hb
    refine ⟨cborMajorOfByte ((mb <<< 5) ||| n), ?_⟩
    have hlist : cbor_encode_header mb .literal n ++ tail =
        ((mb <<< 5) ||| n) :: tail := rfl
    rw [hlist, cbor_decode_header_cons,
      Nat.mod_eq_of_lt (by omega : (mb <<< 5) ||| n < 256)]
    have hand : ((mb <<< 5) ||| n) &&& 31 ≤ 23 := by
      rw [and31_eq_mod]; omega
    rw [cborDecodeCount_literal _ hand]
    have : ((mb <<< 5) ||| n) &&& 31 = n := by
      rw [and31_eq_mod]; omega
    rw [this]
  | w1 =>
    have hn' : n < 256 := by have := hn; norm_num [CountWidth.fits] at this; omega
    have hb := shiftLeft_or_eq_add mb 24 5 (by norm_num)
    norm_num at hb
    refine ⟨cborMajorOfByte ((mb <<< 5) ||| 24), ?_⟩
    have hlist : cbor_encode_header mb .w1 n ++ tail =
        ((mb <<< 5) ||| 24) :: (n >>> 0) % 256 :: tail := rfl
    have hrcb : readCountBytes 1 ((n >>> 0) % 256 :: tail) = .ok (n, tail) := by
      simp only [readCountBytes, List.length_cons]
      rw [if_neg (by omega)]
      have htake : List.take 1 ((n >>> 0) % 256 :: tail) = [(n >>> 0) % 256] := rfl
      have hdrop : List.drop 1 ((n >>> 0) % 256 :: tail) = tail := rfl
      rw [htake, hdrop]
      have hcount : beCombine 0 [(n >>> 0) % 256] = n := by
        simp only [beCombine, List.foldl, combine_step, Nat.shiftRight_eq_div_pow]
        norm_num
        omega
      rw [hcount]
    rw [hlist, cbor_decode_header_cons,
      Nat.mod_eq_of_lt (by omega : (mb <<< 5) ||| 24 < 256),
      cborDecodeCount_24 _ (by rw [and31_eq_mod]; omega), hrcb]
  | w2 =>
    have hn' : n < 65536 := by have := hn; norm_num [CountWidth.fits] at this; omega
    have hb := shiftLeft_or_eq_add mb 25 5 (by norm_num)
    norm_num at hb
    refine ⟨cborMajorOfByte ((mb <<< 5) ||| 25), ?_⟩
    have hlist : cbor_encode_header mb .w2 n ++ tail =
        ((mb <<< 5) ||| 25) :: (n >>> 8) % 256 :: (n >>> 0) % 256 :: tail := rfl
    have hrcb : readCountBytes 2 ((n >>> 8) % 256 :: (n >>> 0) % 256 :: tail) =
        .ok (n, tail) := by
      simp only [readCountBytes, List.length_cons]
      rw [if_neg (by omega)]
      have htake : List.take 2 ((n >>> 8) % 256 :: (n >>> 0) % 256 :: tail) =
          [(n >>> 8) % 256, (n >>> 0) % 256] := rfl
      have hdrop : List.drop 2 ((n >>> 8) % 256 :: (n >>> 0) % 256 :: tail) =
          tail := rfl
      rw [htake, hdrop]
      have hcount : beCombine 0 [(n >>> 8) % 256, (n >>> 0) % 256] = n := by
        simp only [beCombine, List.foldl, combine_step, Nat.shiftRight_eq_div_pow]
        norm_num
        omega
      rw [hcount]
    rw [hlist, cbor_decode_header_cons,
      Nat.mod_eq_of_lt (by omega : (mb <<< 5) ||| 25 < 256),
      cborDecodeCount_25 _ (by rw [and31_eq_mod]; omega), hrcb]
  | w4 =>
    have hn' : n < 4294967296 := by
      have := hn; norm_num [CountWidth.fits] at this; omega
    have hb := shiftLeft_or_eq_add mb 26 5 (by norm_num)
    norm_num at hb
    refine ⟨cborMajorOfByte ((mb <<< 5) ||| 26), ?_⟩
    have hlist : cbor_encode_header mb .w4 n ++ tail =
        ((mb <<< 5) ||| 26) :: (n >>> 24) % 256 :: (n >>> 16) % 256 ::
          (n >>> 8) % 256 :: (n >>> 0) % 256 :: tail := rfl
    have hrcb : readCountBytes 4 ((n >>> 24) % 256 :: (n >>> 16) % 256 ::
        (n >>> 8) % 256 :: (n >>> 0) % 256 :: tail) = .ok (n, tail) := by
      simp only [readCountBytes, List.length_cons]
      rw [if_neg (by omega)]
      have htake : List.take 4 ((n >>> 24) % 256 :: (n >>> 16) % 256 ::
          (n >>> 8) % 256 :: (n >>> 0) % 256 :: tail) =
          [(n >>> 24) % 256, (n >>> 16) % 256, (n >>> 8) % 256,
           (n >>> 0) % 256] := rfl
      have hdrop : List.drop 4 ((n >>> 24) % 256 :: (n >>> 16) % 256 ::
          (n >>> 8) % 256 :: (n >>> 0) % 256 :: tail) = tail := rfl
      rw [htake, hdrop]
      have hcount : beCombine 0 [(n >>> 24) % 256, (n >>> 16) % 256,
          (n >>> 8) % 256, (n >>> 0) % 256] = n := by
        simp only [beCombine, List.foldl, combine_step, Nat.shiftRight_eq_div_pow]
        norm_num
        omega
      rw [hcount]
    rw [hlist, cbor_decode_header_cons,
      Nat.mod_eq_of_lt (by omega : (mb <<< 5) ||| 26 < 256),
      cborDecodeCount_26 _ (by rw [and31_eq_mod]; omega), hrcb]
  | w8 =>
    have hn' : n < 18446744073709551616 := by
      have := hn; norm_num [CountWidth.fits] at this; omega
    have hb := shiftLeft_or_eq_add mb 27 5 (by norm_num)
    norm_num at hb
    refine ⟨cborMajorOfByte ((mb <<< 5) ||| 27), ?_⟩
    have hlist : cbor_encode_header mb .w8 n ++ tail =
        ((mb <<< 5) ||| 27) :: (n >>> 56) % 256 :: (n >>> 48) % 256 ::
          (n >>> 40) % 256 :: (n >>> 32) % 256 :: (n >>> 24) % 256 ::
          (n >>> 16) % 256 :: (n >>> 8) % 256 :: (n >>> 0) % 256 :: tail := rfl
    have hrcb : readCountBytes 8 ((n >>> 56) % 256 :: (n >>> 48) % 256 ::
        (n >>> 40) % 256 :: (n >>> 32) % 256 :: (n >>> 24) % 256 ::
        (n >>> 16) % 256 :: (n >>> 8) % 256 :: (n >>> 0) % 256 :: tail) =
        .ok (n, tail) := by
      simp only [readCountBytes, List.length_cons]
      rw [if_neg (by omega)]
      have htake : List.take 8 ((n >>> 56) % 256 :: (n >>> 48) % 256 ::
          (n >>> 40) % 256 :: (n >>> 32) % 256 :: (n >>> 24) % 256 ::
          (n >>> 16) % 256 :: (n >>> 8) % 256 :: (n >>> 0) % 256 :: tail) =
          [(n >>> 56) % 256, (n >>> 48) % 256, (n >>> 40) % 256,
           (n >>> 32) % 256, (n >>> 24) % 256, (n >>> 16) % 256,
           (n >>> 8) % 256, (n >>> 0) % 256] := rfl
      have hdrop : List.drop 8 ((n >>> 56) % 256 :: (n >>> 48) % 256 ::
          (n >>> 40) % 256 :: (n >>> 32) % 256 :: (n >>> 24) % 256 ::
          (n >>> 16) % 256 :: (n >>> 8) % 256 :: (n >>> 0) % 256 :: tail) =
          tail := rfl
      rw [htake, hdrop]
      have hcount : beCombine 0 [(n >>> 56) % 256, (n >>> 48) % 256,
          (n >>> 40) % 256, (n >>> 32) % 256, (n >>> 24) % 256,
          (n >>> 16) % 256, (n >>> 8) % 256, (n >>> 0) % 256] = n := by
        simp only [beCombine, List.foldl, combine_step, Nat.shiftRight_eq_div_pow]
        norm_num
        omega
      rw [hcount]
    rw [hlist, cbor_decode_header_cons,
      Nat.mod_eq_of_lt (by omega : (mb <<< 5) ||| 27 < 256),
      cborDecodeCount_27 _ (by rw [and31_eq_mod]; omega), hrcb]

/-- Witness for C8 at the boundary counts 0, 23, 24, 255, 65535, 2^32−1 and
2^64−1, encoded under major bits 2 (byte string). -/
theorem C8_round_trip_witness :
    ((2 : Nat) ≤ 7 ∧ CountWidth.fits .w8 (2 ^ 64 - 1)) ∧
    (∃ mt, cbor_decode_header (cbor_encode_header 2 .literal 0 ++ []) =
      .ok (mt, 0, [])) ∧
    (∃ mt, cbor_decode_header (cbor_encode_header 2 .literal 23 ++ []) =
      .ok (mt, 23, [])) ∧
    (∃ mt, cbor_decode_header (cbor_encode_header 2 .w1 24 ++ []) =
      .ok (mt, 24, [])) ∧
    (∃ mt, cbor_decode_header (cbor_encode_header 2 .w1 255 ++ []) =
      .ok (mt, 255, [])) ∧
    (∃ mt, cbor_decode_header (cbor_encode_header 2 .w2 65535 ++ []) =
      .ok (mt, 65535, [])) ∧
    (∃ mt, cbor_decode_header (cbor_encode_header 2 .w4 (2 ^ 32 - 1) ++ []) =
      .ok (mt, 2 ^ 32 - 1, [])) ∧
    (∃ mt, cbor_decode_header (cbor_encode_header 2 .w8 (2 ^ 64 - 1) ++ []) =
      .ok (mt, 2 ^ 64 - 1, [])) :=
  ⟨⟨by norm_num, by norm_num [CountWidth.fits]⟩,
   C8_round_trip 2 .literal 0 [] (by norm_num) (by norm_num [CountWidth.fits]),
   C8_round_trip 2 .literal 23 [] (by norm_num) (by norm_num [CountWidth.fits]),
   C8_round_trip 2 .w1 24 [] (by norm_num) (by norm_num [CountWidth.fits]),
   C8_round_trip 2 .w1 255 [] (by norm_num) (by norm_num [CountWidth.fits]),
   C8_round_trip 2 .w2 65535 [] (by norm_num) (by norm_num [CountWidth.fits]),
   C8_round_trip 2 .w4 (2 ^ 32 - 1) [] (by norm_num)
     (by norm_num [CountWidth.fits]),
   C8_round_trip 2 .w8 (2 ^ 64 - 1) [] (by norm_num)
     (by norm_num [CountWidth.fits])⟩

/-! The boot state machine.  Host primitives (component listing, method
invocation, result retrieval, component-type query, execution-buffer append
and hand-off) are external collaborators; one `Env` record holds their
responses for a single step. -/

/-- A device identifier; the source's `Address` wraps 16 bytes. -/
abbrev Address := List Nat

/-- Mirrors the Rust `UuidSource`; a `component::Listing` cursor is embedded
as the list of addresses it has yet to yield. -/
inductive UuidSource where
  | Eeprom
  | Scan (listing : List Address)
deriving DecidableEq, Repr

/-- Mirrors the Rust `OpeningFileInfo`. -/
structure OpeningFileInfo where
  uuid : Address
  source : UuidSource
deriving DecidableEq, Repr

/-- Mirrors the Rust `ReadingFileInfo`; the owned descriptor is its raw `u32`
value. -/
structure ReadingFileInfo where
  descriptor : Nat
  uuid : Address
deriving DecidableEq, Repr

/-- Mirrors the Rust `State`. -/
inductive State where
  | Init
  | ReadingBootDeviceUuid
  | StartScan
  | Scanning (listing : List Address)
  | OpeningFile (info : OpeningFileInfo)
  | ReadingFile (info : ReadingFileInfo)
deriving DecidableEq, Repr

/-- Mirrors the Rust `RunResult`. -/
inductive RunResult where
  | RunNext
  | Return
deriving DecidableEq, Repr

/-- A host method invocation issued by a step: the EEPROM `getData` call, the
`open` call for `/init.wasm`, or a chunked `read` on a descriptor. -/
inductive HostCall where
  | getData (address : Address)
  | openInit (address : Address)
  | read (address : Address) (descriptor : Nat)
deriving DecidableEq, Repr

/-- How a step ends: a normal `Ok((RunResult, State))`, an `Err` propagated by
`?`, a diverging `computer::error(msg)`, or the diverging successful
`execute::execute()` hand-off. -/
inductive StepOutcome where
  | ok (result : RunResult) (next : State)
  | err (e : Error)
  | fatal (msg : String)
  | handoff
deriving DecidableEq, Repr

/-- The observable result of one step: its outcome, the host calls it issued,
the bytes it appended to the execution buffer via `execute::add`, and the
descriptor released by dropping a `descriptor::Owned` (fatal aborts halt
without running destructors, so they release nothing). -/
structure StepResult where
  outcome : StepOutcome
  calls : List HostCall
  appended : List Nat
  released : Option Nat
deriving DecidableEq, Repr

/-- The host's responses consumed by a single step:
`listStart` is `lister.start(Some(filter))`; `invokeRc` is the return code of
the `invoke_component_method` issued this step; `invokeEndRc` and
`invokeEndData` are the return code of `invoke_end` and the bytes it wrote;
`componentType` is `component::component_type`; `addErr` and `executeErr` are
the failures, if any, of `execute::add` and `execute::execute`. -/
structure Env where
  listStart : String → List Address
  invokeRc : Int
  invokeEndRc : Int
  invokeEndData : List Nat
  componentType : Address → Except Unit String
  addErr : Option Error
  executeErr : Option Error

/-- The component type of a bootable medium (`BOOTABLE_COMPONENT_TYPE`). -/
def BOOTABLE_COMPONENT_TYPE : String := "filesystem"

/-- Runs one step of the state machine, mirroring the Rust `run_step`.  Each
`invoke_*` helper checks its return code and diverges through
`internal_error()` when negative, otherwise completion is `rc != 0`. -/
def run_step (env : Env) (state : State) : StepResult :=
  match state with
  | .Init =>
    match env.listStart "eeprom" with
    | [] => ⟨.fatal "BIOS: no EEPROM", [], [], none⟩
    | eeprom :: _ =>
      if env.invokeRc < 0 then
        ⟨.fatal "BIOS: internal error", [.getData eeprom], [], none⟩
      else
        ⟨.ok (if env.invokeRc = 0 then .Return else .RunNext)
           .ReadingBootDeviceUuid, [.getData eeprom], [], none⟩
  | .ReadingBootDeviceUuid =>
    if env.invokeEndRc < 0 then ⟨.fatal "BIOS: internal error", [], [], none⟩
    else
      match cbor_decode_header env.invokeEndData with
      | .error e => ⟨.err e, [], [], none⟩
      | .ok (major, count, rest) =>
        if major = .Array ∧ count = 1 then
          match cbor_decode_header rest with
          | .error e => ⟨.err e, [], [], none⟩
          | .ok (major2, count2, rest2) =>
            if major2 = .Bytes then
              if rest2.length = count2 then
                if rest2.length = 16 then
                  match env.componentType rest2 with
                  | .ok candidate_type =>
                    if candidate_type = BOOTABLE_COMPONENT_TYPE then
                      if env.invokeRc < 0 then
                        ⟨.fatal "BIOS: internal error", [.openInit rest2],
                          [], none⟩
                      else
                        ⟨.ok (if env.invokeRc = 0 then .Return else .RunNext)
                           (.OpeningFile ⟨rest2, .Eeprom⟩),
                          [.openInit rest2], [], none⟩
                    else ⟨.ok .RunNext .StartScan, [], [], none⟩
                  | .error _ => ⟨.ok .RunNext .StartScan, [], [], none⟩
                else ⟨.ok .RunNext .StartScan, [], [], none⟩
              else ⟨.fatal "BIOS: eeprom.getData bad", [], [], none⟩
            else ⟨.fatal "BIOS: eeprom.getData bad", [], [], none⟩
        else ⟨.fatal "BIOS: eeprom.getData bad", [], [], none⟩
  | .StartScan =>
    ⟨.ok .RunNext (.Scanning (env.listStart BOOTABLE_COMPONENT_TYPE)),
      [], [], none⟩
  | .Scanning listing =>
    match listing with
    | entry :: remaining =>
      if env.invokeRc < 0 then
        ⟨.fatal "BIOS: internal error", [.openInit entry], [], none⟩
      else
        ⟨.ok (if env.invokeRc = 0 then .Return else .RunNext)
           (.OpeningFile ⟨entry, .Scan remaining⟩), [.openInit entry], [], none⟩
    | [] => ⟨.fatal "BIOS: no bootable medium", [], [], none⟩
  | .OpeningFile info =>
    if 0 ≤ env.invokeEndRc then
      match cbor_decode_header env.invokeEndData with
      | .error e => ⟨.err e, [], [], none⟩
      | .ok (major, count, rest) =>
        if major = .Array ∧ count = 1 then
          match cbor_decode_header rest with
          | .error e => ⟨.err e, [], [], none⟩
          | .ok (major2, count2, rest2) =>
            if major2 = .Tag ∧ count2 = 39 then
              match cbor_decode_header rest2 with
              | .error e => ⟨.err e, [], [], none⟩
              | .ok (major3, count3, _) =>
                if major3 = .UnsignedInteger then
                  -- `count3 as u32`: the 64-bit count truncated to 32 bits.
                  if env.invokeRc < 0 then
                    ⟨.fatal "BIOS: internal error",
                      [.read info.uuid (count3 % 2 ^ 32)], [], none⟩
                  else
                    ⟨.ok (if env.invokeRc = 0 then .Return else .RunNext)
                       (.ReadingFile ⟨count3 % 2 ^ 32, info.uuid⟩),
                      [.read info.uuid (count3 % 2 ^ 32)], [], none⟩
                else ⟨.fatal "BIOS: filesystem.open bad", [], [], none⟩
            else ⟨.fatal "BIOS: filesystem.open bad", [], [], none⟩
        else ⟨.fatal "BIOS: filesystem.open bad", [], [], none⟩
    else if env.invokeEndRc = -12 then
      ⟨.ok .RunNext
         (match info.source with
          | .Eeprom => .StartScan
          | .Scan listing => .Scanning listing), [], [], none⟩
    else ⟨.fatal "BIOS: filesystem.open bad", [], [], none⟩
  | .ReadingFile info =>
    if env.invokeEndRc < 0 then ⟨.fatal "BIOS: internal error", [], [], none⟩
    else
      match cbor_decode_header env.invokeEndData with
      | .error e => ⟨.err e, [], [], some info.descriptor⟩
      | .ok (major, count, rest) =>
        if major = .Array ∧ count = 1 then
          match cbor_decode_header rest with
          | .error e => ⟨.err e, [], [], some info.descriptor⟩
          | .ok (major2, count2, rest2) =>
            if major2 = .Bytes ∧ count2 ≤ rest2.length then
              match env.addErr with
              | some e => ⟨.err e, [], [], some info.descriptor⟩
              | none =>
                if env.invokeRc < 0 then
                  ⟨.fatal "BIOS: internal error",
                    [.read info.uuid info.descriptor],
                    rest2.take count2, none⟩
                else
                  ⟨.ok (if env.invokeRc = 0 then .Return else .RunNext)
                     (.ReadingFile info), [.read info.uuid info.descriptor],
                    rest2.take count2, none⟩
            else if major2 = .Special ∧ count2 = 22 then
              match env.executeErr with
              | none => ⟨.handoff, [], [], some info.descriptor⟩
              | some e => ⟨.err e, [], [], some info.descriptor⟩
            else
              ⟨.fatal "BIOS: I/O error reading /init.wasm", [], [], none⟩
        else ⟨.fatal "BIOS: I/O error reading /init.wasm", [], [], none⟩

/-- How the run loop ends over a finite script of host responses. -/
inductive RunOutcome where
  | returned (finalState : State)
  | fatalAbort (msg : String)
  | handoff
  | outOfFuel (state : State)
deriving Repr

/-- The entry point's loop, mirroring the Rust `run`: each iteration takes the
persisted state, runs one step against the next host-response record, stores
the produced state, and continues only on `RunNext`.  A step `Err` is the
fatal internal-error abort of the source's `run`. -/
def run : List Env → State → RunOutcome
  | [], s => .outOfFuel s
  | env :: envs, s =>
    match (run_step env s).outcome with
    | .ok .RunNext next => run envs next
    | .ok .Return next => .returned next
    | .err _ => .fatalAbort "BIOS: internal error"
    | .fatal msg => .fatalAbort msg
    | .handoff => .handoff

/-- C7.  In the `Scanning` state, an exhausted enumeration cursor aborts
fatally with the no-bootable-medium message and issues no host call. -/
theorem C7_exhausted_scan (env : Env) :
    run_step env (.Scanning []) =
      ⟨.fatal "BIOS: no bootable medium", [], [], none⟩ := rfl

/-- C10.  In the `OpeningFile` state, a successfully decoded 1-element array
holding a tag-39 value wrapping an unsigned integer `n` yields a `ReadingFile`
state whose handle is `n` truncated to 32 bits, so for `n ≥ 2^32` the stored
handle differs from the decoded integer. -/
theorem C10_descriptor_truncation (env : Env) (info : OpeningFileInfo)
    (n : Nat) (rest rest2 rest3 : List Nat)
    (hrc : 0 ≤ env.invokeEndRc)
    (h1 : cbor_decode_header env.invokeEndData = .ok (.Array, 1, rest))
    (h2 : cbor_decode_header rest = .ok (.Tag, 39, rest2))
    (h3 : cbor_decode_header rest2 = .ok (.UnsignedInteger, n, rest3))
    (hinv : 0 ≤ env.invokeRc) :
    run_step env (.OpeningFile info) =
      ⟨.ok (if env.invokeRc = 0 then .Return else .RunNext)
         (.ReadingFile ⟨n % 2 ^ 32, info.uuid⟩),
       [.read info.uuid (n % 2 ^ 32)], [], none⟩ ∧
    (2 ^ 32 ≤ n → n % 2 ^ 32 ≠ n) := by
  constructor
  · have hinv' : ¬ (env.invokeRc < 0) := by omega
    simp [run_step, hrc, h1, h2, h3, hinv']
  · intro hn
    have h := Nat.mod_lt n (y := 2 ^ 32) (by norm_num)
    omega

/-- Witness for C10 with the open result encoding the descriptor 2^32 (which
truncates to handle 0). -/
theorem C10_descriptor_truncation_witness :
    (0 : Int) ≤ 0 ∧
    cbor_decode_header [129, 216, 39, 27, 0, 0, 0, 1, 0, 0, 0, 0] =
      .ok (.Array, 1, [216, 39, 27, 0, 0, 0, 1, 0, 0, 0, 0]) ∧
    cbor_decode_header [216, 39, 27, 0, 0, 0, 1, 0, 0, 0, 0] =
      .ok (.Tag, 39, [27, 0, 0, 0, 1, 0, 0, 0, 0]) ∧
    cbor_decode_header [27, 0, 0, 0, 1, 0, 0, 0, 0] =
      .ok (.UnsignedInteger, 4294967296, []) ∧
    (run_step
        ⟨fun _ => [], 1, 0, [129, 216, 39, 27, 0, 0, 0, 1, 0, 0, 0, 0],
          fun _ => .error (), none, none⟩
        (.OpeningFile ⟨[5], .Eeprom⟩) =
      ⟨.ok (if (1 : Int) = 0 then .Return else .RunNext)
         (.ReadingFile ⟨4294967296 % 2 ^ 32, [5]⟩),
       [.read [5] (4294967296 % 2 ^ 32)], [], none⟩ ∧
     (2 ^ 32 ≤ 4294967296 → 4294967296 % 2 ^ 32 ≠ 4294967296)) :=
  ⟨by decide, by rfl, by rfl, by rfl,
   C10_descriptor_truncation
     ⟨fun _ => [], 1, 0, [129, 216, 39, 27, 0, 0, 0, 1, 0, 0, 0, 0],
       fun _ => .error (), none, none⟩
     ⟨[5], .Eeprom⟩ 4294967296
     [216, 39, 27, 0, 0, 0, 1, 0, 0, 0, 0] [27, 0, 0, 0, 1, 0, 0, 0, 0] []
     (by decide) (by rfl) (by rfl) (by rfl) (by decide)⟩

/-- C3.  In the `OpeningFile` state, only the failure code −12 is recoverable:
it falls back to `StartScan` when the UUID came from the EEPROM and to
`Scanning` with the same cursor when it came from an enumeration; every other
negative code aborts fatally.  In all three branches the step issues no host
call, so the failed open is never retried within the step. -/
theorem C3_open_failure_fallback (env : Env) (info : OpeningFileInfo)
    (hneg : env.invokeEndRc < 0) :
    (env.invokeEndRc = -12 → info.source = .Eeprom →
      run_step env (.OpeningFile info) =
        ⟨.ok .RunNext .StartScan, [], [], none⟩) ∧
    (∀ listing, env.invokeEndRc = -12 → info.source = .Scan listing →
      run_step env (.OpeningFile info) =
        ⟨.ok .RunNext (.Scanning listing), [], [], none⟩) ∧
    (env.invokeEndRc ≠ -12 →
      run_step env (.OpeningFile info) =
        ⟨.fatal "BIOS: filesystem.open bad", [], [], none⟩) := by
  have hge : ¬ (0 ≤ env.invokeEndRc) := by omega
  refine ⟨?_, ?_, ?_⟩
  · intro h12 hsrc
    simp [run_step, hge, h12, hsrc]
  · intro listing h12 hsrc
    simp [run_step, hge, h12, hsrc]
  · intro h12
    simp [run_step, hge, h12]

/-- Witness for C3 with failure code −12 and an EEPROM-sourced UUID. -/
theorem C3_open_failure_fallback_witness :
    (-12 : Int) < 0 ∧ (-12 : Int) = -12 ∧
    run_step ⟨fun _ => [], 0, -12, [], fun _ => .error (), none, none⟩
        (.OpeningFile ⟨[5], .Eeprom⟩) =
      ⟨.ok .RunNext .StartScan, [], [], none⟩ :=
  ⟨by decide, by decide,
   (C3_open_failure_fallback
      ⟨fun _ => [], 0, -12, [], fun _ => .error (), none, none⟩
      ⟨[5], .Eeprom⟩ (by decide)).1 (by decide) (by rfl)⟩

/-- C2.  In the `ReadingFile` state, on a retrieved result decoding as a
1-element array: a byte string whose count is at most the remaining slice
length appends exactly those count bytes, issues another read on the same
handle, and stays in `ReadingFile` with the same handle and UUID; the fixed
null/EOF special value (Special, 22) releases the handle and hands off to the
execution engine, which never returns on success; any other decoded shape
aborts fatally. -/
theorem C2_reading_file (env : Env) (info : ReadingFileInfo) (rest : List Nat)
    (hrc : 0 ≤ env.invokeEndRc)
    (h1 : cbor_decode_header env.invokeEndData = .ok (.Array, 1, rest)) :
    (∀ count rest2, cbor_decode_header rest = .ok (.Bytes, count, rest2) →
      count ≤ rest2.length → env.addErr = none → 0 ≤ env.invokeRc →
      run_step env (.ReadingFile info) =
        ⟨.ok (if env.invokeRc = 0 then .Return else .RunNext)
           (.ReadingFile info),
         [.read info.uuid info.descriptor], rest2.take count, none⟩) ∧
    (∀ rest2, cbor_decode_header rest = .ok (.Special, 22, rest2) →
      (run_step env (.ReadingFile info)).released = some info.descriptor ∧
      (env.executeErr = none →
        run_step env (.ReadingFile info) =
          ⟨.handoff, [], [], some info.descriptor⟩)) ∧
    (∀ m2 count rest2, cbor_decode_header rest = .ok (m2, count, rest2) →
      ¬ (m2 = .Bytes ∧ count ≤ rest2.length) →
      ¬ (m2 = .Special ∧ count = 22) →
      run_step env (.ReadingFile info) =
        ⟨.fatal "BIOS: I/O error reading /init.wasm", [], [], none⟩) := by
  have hrc' : ¬ (env.invokeEndRc < 0) := by omega
  refine ⟨?_, ?_, ?_⟩
  · intro count rest2 h2 hcount hadd hinv
    have hinv' : ¬ (env.invokeRc < 0) := by omega
    simp [run_step, hrc', h1, h2, hcount, hadd, hinv']
  · intro rest2 h2
    constructor
    · cases hexec : env.executeErr with
      | none => simp [run_step, hrc', h1, h2, hexec]
      | some e => simp [run_step, hrc', h1, h2, hexec]
    · intro hexec
      simp [run_step, hrc', h1, h2, hexec]
  · intro m2 count rest2 h2 hnb hns
    simp [run_step, hrc', h1, h2, hnb, hns]

/-- Witness for C2 with a two-byte chunk result. -/
theorem C2_reading_file_witness :
    (0 : Int) ≤ 0 ∧
    cbor_decode_header [129, 66, 1, 2] = .ok (.Array, 1, [66, 1, 2]) ∧
    cbor_decode_header [66, 1, 2] = .ok (.Bytes, 2, [1, 2]) ∧
    run_step ⟨fun _ => [], 1, 0, [129, 66, 1, 2], fun _ => .error (),
        none, none⟩ (.ReadingFile ⟨7, [3]⟩) =
      ⟨.ok (if (1 : Int) = 0 then .Return else .RunNext)
         (.ReadingFile ⟨7, [3]⟩), [.read [3] 7], List.take 2 [1, 2], none⟩ :=
  ⟨by decide, by rfl, by rfl,
   (C2_reading_file
      ⟨fun _ => [], 1, 0, [129, 66, 1, 2], fun _ => .error (), none, none⟩
      ⟨7, [3]⟩ [66, 1, 2] (by decide) (by rfl)).1 2 [1, 2]
     (by rfl) (by decide) (by rfl) (by decide)⟩

/-- C4.  In the `ReadingBootDeviceUuid` state, a retrieved result decoding as
a 1-element array holding a byte string: a 16-byte string whose queried type
is "filesystem" leads to an open call against that device and the
`OpeningFile` state with the configured-device source; a wrong length, a
failed type query, or a different type leads to `StartScan`; any decoded shape
that is not a 1-element array holding a byte string aborts fatally. -/
theorem C4_boot_uuid (env : Env) (hrc : 0 ≤ env.invokeEndRc) :
    (∀ rest count rest2,
      cbor_decode_header env.invokeEndData = .ok (.Array, 1, rest) →
      cbor_decode_header rest = .ok (.Bytes, count, rest2) →
      rest2.length = count →
      ((∀ t, rest2.length = 16 → env.componentType rest2 = .ok t →
          t = BOOTABLE_COMPONENT_TYPE → 0 ≤ env.invokeRc →
          run_step env .ReadingBootDeviceUuid =
            ⟨.ok (if env.invokeRc = 0 then .Return else .RunNext)
               (.OpeningFile ⟨rest2, .Eeprom⟩), [.openInit rest2], [], none⟩) ∧
       (rest2.length ≠ 16 →
          run_step env .ReadingBootDeviceUuid =
            ⟨.ok .RunNext .StartScan, [], [], none⟩) ∧
       (∀ u, rest2.length = 16 → env.componentType rest2 = .error u →
          run_step env .ReadingBootDeviceUuid =
            ⟨.ok .RunNext .StartScan, [], [], none⟩) ∧
       (∀ t, rest2.length = 16 → env.componentType rest2 = .ok t →
          t ≠ BOOTABLE_COMPONENT_TYPE →
          run_step env .ReadingBootDeviceUuid =
            ⟨.ok .RunNext .StartScan, [], [], none⟩))) ∧
    (∀ m c r, cbor_decode_header env.invokeEndData = .ok (m, c, r) →
      ¬ (m = .Array ∧ c = 1) →
      run_step env .ReadingBootDeviceUuid =
        ⟨.fatal "BIOS: eeprom.getData bad", [], [], none⟩) ∧
    (∀ r m2 c2 r2,
      cbor_decode_header env.invokeEndData = .ok (.Array, 1, r) →
      cbor_decode_header r = .ok (m2, c2, r2) → m2 ≠ .Bytes →
      run_step env .ReadingBootDeviceUuid =
        ⟨.fatal "BIOS: eeprom.getData bad", [], [], none⟩) := by
  have hrc' : ¬ (env.invokeEndRc < 0) := by omega
  refine ⟨?_, ?_, ?_⟩
  · intro rest count rest2 h1 h2 hlen
    subst hlen
    refine ⟨?_, ?_, ?_, ?_⟩
    · intro t h16 hct ht hinv
      have hinv' : ¬ (env.invokeRc < 0) := by omega
      simp [run_step, hrc', h1, h2, h16, hct, ht, hinv']
    · intro h16
      simp [run_step, hrc', h1, h2, h16]
    · intro u h16 hct
      simp [run_step, hrc', h1, h2, h16, hct]
    · intro t h16 hct ht
      simp [run_step, hrc', h1, h2, h16, hct, ht]
  · intro m c r h1 hnot
    simp [run_step, hrc', h1, hnot]
  · intro r m2 c2 r2 h1 h2 hnb
    simp [run_step, hrc', h1, h2, hnb]

/-- Witness for C4 with a 16-byte UUID whose type query answers
"filesystem". -/
theorem C4_boot_uuid_witness :
    (0 : Int) ≤ 0 ∧
    cbor_decode_header
        [129, 80, 0, 0, 0, 0, 0, 0, 0, 0, 0, 0, 0, 0, 0, 0, 0, 0] =
      .ok (.Array, 1, [80, 0, 0, 0, 0, 0, 0, 0, 0, 0, 0, 0, 0, 0, 0, 0, 0]) ∧
    cbor_decode_header [80, 0, 0, 0, 0, 0, 0, 0, 0, 0, 0, 0, 0, 0, 0, 0, 0] =
      .ok (.Bytes, 16, [0, 0, 0, 0, 0, 0, 0, 0, 0, 0, 0, 0, 0, 0, 0, 0]) ∧
    run_step
        ⟨fun _ => [], 1, 0,
          [129, 80, 0, 0, 0, 0, 0, 0, 0, 0, 0, 0, 0, 0, 0, 0, 0, 0],
          fun _ => .ok "filesystem", none, none⟩ .ReadingBootDeviceUuid =
      ⟨.ok (if (1 : Int) = 0 then .Return else .RunNext)
         (.OpeningFile ⟨[0, 0, 0, 0, 0, 0, 0, 0, 0, 0, 0, 0, 0, 0, 0, 0],
            .Eeprom⟩),
       [.openInit [0, 0, 0, 0, 0, 0, 0, 0, 0, 0, 0, 0, 0, 0, 0, 0]],
       [], none⟩ :=
  ⟨by decide, by rfl, by rfl,
   ((C4_boot_uuid
      ⟨fun _ => [], 1, 0,
        [129, 80, 0, 0, 0, 0, 0, 0, 0, 0, 0, 0, 0, 0, 0, 0, 0, 0],
        fun _ => .ok "filesystem", none, none⟩ (by decide)).1
     [80, 0, 0, 0, 0, 0, 0, 0, 0, 0, 0, 0, 0, 0, 0, 0, 0] 16
     [0, 0, 0, 0, 0, 0, 0, 0, 0, 0, 0, 0, 0, 0, 0, 0]
     (by rfl) (by rfl) (by rfl)).1 "filesystem"
     (by rfl) (by rfl) (by rfl) (by decide)⟩

/-- C6.  The run loop chains steps while each reports `RunNext`, persisting
the produced state between steps; it returns to the host with the produced
state persisted as soon as a step reports `Return`; a step error aborts
fatally with the internal-error message. -/
theorem C6_run_loop (env : Env) (envs : List Env) (s : State) :
    (∀ n, (run_step env s).outcome = .ok .RunNext n →
      run (env :: envs) s = run envs n) ∧
    (∀ n, (run_step env s).outcome = .ok .Return n →
      run (env :: envs) s = .returned n) ∧
    (∀ e, (run_step env s).outcome = .err e →
      run (env :: envs) s = .fatalAbort "BIOS: internal error") := by
  refine ⟨?_, ?_, ?_⟩
  · intro n h
    simp [run, h]
  · intro n h
    simp [run, h]
  · intro e h
    simp [run, h]

/-- Witness for C6: a `RunNext` step from `StartScan`, a `Return` step from
`Init`, and an error step from `ReadingBootDeviceUuid` on an empty result. -/
theorem C6_run_loop_witness :
    ((run_step ⟨fun _ => [], 0, 0, [], fun _ => .error (), none, none⟩
        .StartScan).outcome = .ok .RunNext (.Scanning []) ∧
      run [⟨fun _ => [], 0, 0, [], fun _ => .error (), none, none⟩]
        .StartScan = run [] (.Scanning [])) ∧
    ((run_step ⟨fun _ => [[9]], 0, 0, [], fun _ => .error (), none, none⟩
        .Init).outcome = .ok .Return .ReadingBootDeviceUuid ∧
      run [⟨fun _ => [[9]], 0, 0, [], fun _ => .error (), none, none⟩]
        .Init = .returned .ReadingBootDeviceUuid) ∧
    ((run_step ⟨fun _ => [], 0, 0, [], fun _ => .error (), none, none⟩
        .ReadingBootDeviceUuid).outcome = .err .BufferTooShort ∧
      run [⟨fun _ => [], 0, 0, [], fun _ => .error (), none, none⟩]
        .ReadingBootDeviceUuid = .fatalAbort "BIOS: internal error") :=
  ⟨⟨by rfl,
    (C6_run_loop ⟨fun _ => [], 0, 0, [], fun _ => .error (), none, none⟩ []
       .StartScan).1 (.Scanning []) (by rfl)⟩,
   ⟨by rfl,
    (C6_run_loop ⟨fun _ => [[9]], 0, 0, [], fun _ => .error (), none, none⟩ []
       .Init).2.1 .ReadingBootDeviceUuid (by rfl)⟩,
   ⟨by rfl,
    (C6_run_loop ⟨fun _ => [], 0, 0, [], fun _ => .error (), none, none⟩ []
       .ReadingBootDeviceUuid).2.2 .BufferTooShort (by rfl)⟩⟩

end OcWasmBios
